import Mathlib

/-!
Shallow embedding of `gm/rebaseline_server/results.py` (results reconciliation
engine for the rebaseline viewer): directory-tree reader/writer, category
summarizer, reconciliation engine, and baseline editor, together with proofs
of the behavioural properties claimed of it.

Python values that flow through the JSON documents (hash types, hash digests)
are modelled by the `PyVal` type below; Python dictionaries are modelled as
association lists (`List (String × _)`) manipulated only through `mapGet`
(first-match lookup, Python `dict.get` / `dict[...]`) and `mapSet`
(replace-or-append, Python `dict[...] = ...`).  The filesystem roots passed to
the reader and writer are modelled as `Root`: a flag saying whether the root
is a directory plus the list of files found under it, in `os.walk` order; a
file carries the base name of its containing directory (the builder name), its
file name, and the already-parsed JSON document it holds (the external
`gm_json.LoadFromFile` / `WriteToFile` primitives are treated as the identity
on these documents, as the spec directs).  Python exceptions are modelled by
the `PyErr` type; functions that can raise return `Except PyErr _`, and the
writer/editor, which mutate disk before possibly raising, return their updated
root together with an optional error.
-/

/-- Python values appearing inside the JSON result documents. -/
inductive PyVal where
  | none : PyVal
  | str : String → PyVal
  | int : Int → PyVal
  | bool : Bool → PyVal
deriving DecidableEq, Repr

/-- Python `str()` applied to a `PyVal` (`str(None) = "None"`, `str(True) = "True"`). -/
def pyStr : PyVal → String
  | PyVal.none => "None"
  | PyVal.str s => s
  | PyVal.int n => toString n
  | PyVal.bool true => "True"
  | PyVal.bool false => "False"

/-- Python exceptions raised by the code in `results.py`.  `setMismatch` is the
`KeyError` raised by `_write_dicts_to_root` after the write loop; `keyError`
is the `KeyError` from `expected_builder_dicts[mod['builder']]`; `valueError`
is from `int(mod['expectedHashDigest'])`; `indexError` is from
`[...][0]` on an empty allowed-digests list; `attributeError` is from calling
`.groups()` on a failed regex match. -/
inductive PyErr where
  | ioError
  | keyError (msg : String)
  | valueError (msg : String)
  | setMismatch (expectedWritten actualWritten : List String)
  | indexError
  | attributeError
deriving DecidableEq, Repr

/-- Whether an error is the writer's post-write set-mismatch error. -/
def PyErr.isSetMismatch : PyErr → Bool
  | PyErr.setMismatch _ _ => true
  | _ => false

/-- Lexicographic comparison (≤, by character code) of character lists; used
to model Python's `sorted()` over strings.  (Defined from scratch rather than
through the library's byte-position-based string order so that every
comparison reduces definitionally.) -/
def lexLeChars : List Char → List Char → Bool
  | [], _ => true
  | _ :: _, [] => false
  | a :: s, b :: t =>
    if a.toNat < b.toNat then true
    else if b.toNat < a.toNat then false
    else lexLeChars s t

/-- String comparison used by the model's `sorted()`. -/
def strLeB (a b : String) : Bool :=
  lexLeChars a.data b.data

/-- Strict version of the model's string order, as a proposition. -/
def strLt (a b : String) : Prop :=
  strLeB a b = true ∧ a ≠ b

/-- Whether the character list `s` ends with the character list `p`. -/
def charsEndWith (s p : List Char) : Bool :=
  p.length ≤ s.length && s.drop (s.length - p.length) == p

/-- Python `s.endswith(suffix)`. -/
def strEndsWith (s suffix : String) : Bool :=
  charsEndWith s.data suffix.data

/-- Python `dict` lookup on an association list (first matching key). -/
def mapGet {α : Type} : List (String × α) → String → Option α
  | [], _ => Option.none
  | (k, v) :: t, k' => if k = k' then some v else mapGet t k'

/-- Python `dict` assignment on an association list: replace the binding of an
existing key in place, otherwise append a new binding. -/
def mapSet {α : Type} : List (String × α) → String → α → List (String × α)
  | [], k, v => [(k, v)]
  | (k', v') :: t, k, v => if k' = k then (k, v) :: t else (k', v') :: mapSet t k v

/-- Insert a string into an already sorted list, keeping it sorted. -/
def insertSorted (a : String) : List String → List String
  | [] => [a]
  | b :: t => if strLeB a b then a :: b :: t else b :: insertSorted a t

/-- Python `sorted()` on a list of strings (insertion sort). -/
def sortStrings (l : List String) : List String :=
  l.foldr insertSorted []

/-- Python `sorted(d.keys())` for a dictionary modelled as an association
list: the distinct keys, in ascending order. -/
def sortedKeys {α : Type} (l : List (String × α)) : List String :=
  sortStrings (l.map Prod.fst).dedup

/-! Constants mirrored from the top of `results.py` and, for the `gm_json`
key/value constants (whose defining module is outside the covered sources),
modelled from the spec's data model section. -/

/-- Modelled from the spec: the `gm_json` result-type key `"failed"`. -/
def JSONKEY_ACTUALRESULTS_FAILED : String := "failed"

/-- Modelled from the spec: the `gm_json` result-type key `"failure-ignored"`. -/
def JSONKEY_ACTUALRESULTS_FAILUREIGNORED : String := "failure-ignored"

/-- Modelled from the spec: the `gm_json` result-type key `"no-comparison"`. -/
def JSONKEY_ACTUALRESULTS_NOCOMPARISON : String := "no-comparison"

/-- Modelled from the spec: the `gm_json` result-type key `"succeeded"`. -/
def JSONKEY_ACTUALRESULTS_SUCCEEDED : String := "succeeded"

/-- `CATEGORIES_TO_SUMMARIZE` from `results.py`. -/
def CATEGORIES_TO_SUMMARIZE : List String :=
  ["builder", "test", "config", "resultType"]

/-- `RESULTS_ALL` from `results.py`. -/
def RESULTS_ALL : String := "all"

/-- `RESULTS_FAILURES` from `results.py`. -/
def RESULTS_FAILURES : String := "failures"

/-- `IMAGE_FILENAME_FORMATTER % (testname, config)` from `results.py`. -/
def imageFilenameFormatter (testname config : String) : String :=
  testname ++ "_" ++ config ++ ".png"

/-- Split a character list at every occurrence of a separator character
(Python `str.split(sep)`: an empty input yields one empty part). -/
def splitOnChar (sep : Char) : List Char → List (List Char)
  | [] => [[]]
  | c :: t =>
    let r := splitOnChar sep t
    if c == sep then [] :: r
    else
      match r with
      | [] => [[c]]
      | h :: t' => (c :: h) :: t'

/-- Rejoin parts with an underscore separator (inverse of splitting on it). -/
def joinUnderscore : List (List Char) → List Char
  | [] => []
  | [p] => p
  | p :: ps => p ++ '_' :: joinUnderscore ps

/-- Modelled from the spec: the external filename pattern matcher
(`IMAGE_FILENAME_RE`, whose pattern lives in the external `gm_json` module).
The spec says an image name has the fixed form `<testname>_<config>.png` and
that the matcher returns `(testname, config)` or fails; the underlying regex
is greedy, so the split is at the last underscore, and both parts must be
nonempty. -/
def parseImageName (imageName : String) : Option (String × String) :=
  if strEndsWith imageName ".png" then
    let stem := imageName.data.take (imageName.data.length - 4)
    let parts := splitOnChar '_' stem
    if parts.length < 2 then Option.none
    else
      let config := parts.getLastD []
      let testname := joinUnderscore parts.dropLast
      if testname.isEmpty || config.isEmpty then Option.none
      else some (testname.asString, config.asString)
  else Option.none

/-- The numeric value of an ASCII digit character, if it is one. -/
def digitVal? (c : Char) : Option Nat :=
  if 48 ≤ c.toNat && c.toNat ≤ 57 then some (c.toNat - 48) else Option.none

/-- Accumulate a digit string into a natural number, failing on the empty
string or on any non-digit character. -/
def natOfDigits? (cs : List Char) : Option Nat :=
  if cs.isEmpty then Option.none
  else cs.foldl
    (fun acc c =>
      match acc, digitVal? c with
      | some a, some d => some (a * 10 + d)
      | _, _ => Option.none)
    (some 0)

/-- Python's `int()` builtin on a string: an optional sign followed by one or
more decimal digits.  (Surrounding whitespace, which `int()` also accepts, is
not modelled; none of the call sites produce it.) -/
def pyInt? (s : String) : Option Int :=
  match s.data with
  | '-' :: t => (natOfDigits? t).map (fun n => -(n : Int))
  | '+' :: t => (natOfDigits? t).map (fun n => (n : Int))
  | t => (natOfDigits? t).map (fun n => (n : Int))

/-- A `[hashType, hashDigest]` pair from the JSON documents. -/
abbrev HashPair := PyVal × PyVal

/-- The per-image entry of an expected-results document:
`{allowed-digests: [...], ignore-failure: ...}`.  `Option.none` in a field
models absence of the corresponding key (or a JSON null there, which the code
treats the same way in every path it exercises). -/
structure ExpectedEntry where
  allowedDigests : Option (List HashPair)
  ignoreFailure : Option PyVal
deriving DecidableEq, Repr

/-- An expected-results document for one builder: the dictionary stored under
the `expected-results` key (`Option.none` when the key is absent), mapping
image name to `ExpectedEntry`.  Keys of the document other than
`expected-results` are never read or written by the code and are not
modelled; consequently Python truthiness of the whole document is modelled as
the presence of the `expected-results` key (`docTruthy`). -/
structure ExpectedDoc where
  expectedResults : Option (List (String × ExpectedEntry))
deriving DecidableEq, Repr

/-- Python truthiness of a per-builder expected document (an empty dict is
falsy; `_write_dicts_to_root` skips falsy documents). -/
def docTruthy (d : ExpectedDoc) : Bool :=
  d.expectedResults.isSome

/-- An actual-results document for one builder: the dictionary stored under
the `actual-results` key, mapping result type to a dictionary from image name
to `[hashType, hashDigest]`.  (A document lacking the `actual-results` key
would make the loader raise an uncaught `KeyError`; such malformed documents
are outside the model.) -/
structure ActualDoc where
  actualResults : List (String × List (String × HashPair))
deriving DecidableEq, Repr

/-- One file found by `os.walk` under a root directory: the base name of the
directory containing it (which the code uses as the builder name), its file
name (matched against the `*.json` pattern), and the JSON document it holds. -/
structure FileEntry (α : Type) where
  dirBase : String
  filename : String
  content : α
deriving DecidableEq, Repr

/-- A filesystem root as seen by the reader/writer: whether the path is a
directory, and the files under it in `os.walk` traversal order. -/
structure Root (α : Type) where
  isDir : Bool
  files : List (FileEntry α)
deriving DecidableEq, Repr

/-- `fnmatch` of a file name against the (always defaulted) `'*.json'`
pattern. -/
def matchesJson (filename : String) : Bool :=
  strEndsWith filename ".json"

/-- `Results._read_dicts_from_root`: walk the tree, and for every `*.json`
file whose containing directory is not a `-Trybot` builder, bind the builder
name to the file's document (a later file for the same builder wins).
Raises `IOError` if the root is not a directory. -/
def readDictsFromRoot {α : Type} (root : Root α) : Except PyErr (List (String × α)) :=
  if root.isDir = false then Except.error PyErr.ioError
  else Except.ok (root.files.foldl
    (fun md f =>
      if matchesJson f.filename && !(strEndsWith f.dirBase "-Trybot") then
        mapSet md f.dirBase f.content
      else md)
    [])

/-- The per-file action of `Results._write_dicts_to_root`: for a `*.json` file
of a non-`-Trybot` builder whose builder has a truthy entry in the input
mapping, overwrite the file with that entry and record the builder as
written. -/
def writeFileStep {α : Type} (truthy : α → Bool) (meta : List (String × α))
    (f : FileEntry α) : FileEntry α × Option String :=
  if matchesJson f.filename && !(strEndsWith f.dirBase "-Trybot") then
    match mapGet meta f.dirBase with
    | some d => if truthy d then ({ f with content := d }, some f.dirBase) else (f, Option.none)
    | Option.none => (f, Option.none)
  else (f, Option.none)

/-- `Results._write_dicts_to_root`: overwrite every existing matching file
whose builder has a truthy entry in `meta`, then raise the set-mismatch
`KeyError` if the sorted list of builders actually written differs from the
sorted keys of `meta`.  The updated root is returned together with the
optional error, because the files have already been mutated when the error is
raised. -/
def writeDictsToRoot {α : Type} (truthy : α → Bool) (meta : List (String × α))
    (root : Root α) : Root α × Option PyErr :=
  if root.isDir = false then (root, some PyErr.ioError)
  else
    let stepped := root.files.map (writeFileStep truthy meta)
    let newFiles := stepped.map Prod.fst
    let written := stepped.filterMap Prod.snd
    let expectedBuildersWritten := sortStrings (meta.map Prod.fst)
    let actualBuildersWritten := sortStrings written
    ({ root with files := newFiles },
     if expectedBuildersWritten = actualBuildersWritten then Option.none
     else some (PyErr.setMismatch expectedBuildersWritten actualBuildersWritten))

/-- A category dictionary: category name ↦ (value ↦ occurrence count). -/
abbrev CategoryDict := List (String × List (String × Nat))

/-- Lookup of a single count in a category dictionary. -/
def innerGet (cd : CategoryDict) (category value : String) : Option Nat :=
  (mapGet cd category).bind (fun inner => mapGet inner value)

/-- One category's step of `Results._add_to_category_dict`: skip a falsy
(empty) value; otherwise normalize a falsy inner dictionary to empty, treat a
falsy (absent or zero) current count as zero, and increment. -/
def addOneCategory (cd : CategoryDict) (category value : String) : CategoryDict :=
  if value = "" then cd
  else
    let inner := match mapGet cd category with
      | some l => if l.isEmpty then [] else l
      | Option.none => []
    let cur := match mapGet inner value with
      | some n => n
      | Option.none => 0
    mapSet cd category (mapSet inner value (cur + 1))

/-- The test/config/builder/result-type fields of one Test Result Record. -/
structure TestRecord where
  builder : String
  test : String
  config : String
  resultType : String
  actualHashType : PyVal
  actualHashDigest : PyVal
  expectedHashType : PyVal
  expectedHashDigest : PyVal
deriving DecidableEq, Repr

/-- `test_results.get(category)` for the categories in
`CATEGORIES_TO_SUMMARIZE` (an empty string plays the role of a falsy/missing
value). -/
def categoryValueOf (r : TestRecord) : String → String
  | "builder" => r.builder
  | "test" => r.test
  | "config" => r.config
  | "resultType" => r.resultType
  | _ => ""

/-- `Results._add_to_category_dict`. -/
def addToCategoryDict (cd : CategoryDict) (r : TestRecord) : CategoryDict :=
  CATEGORIES_TO_SUMMARIZE.foldl (fun cd category => addOneCategory cd category (categoryValueOf r category)) cd

/-- `Results._ensure_included_in_category_dict`. -/
def ensureIncludedInCategoryDict (cd : CategoryDict) (categoryName : String)
    (categoryValues : List String) : CategoryDict :=
  let cd := match mapGet cd categoryName with
    | some l => if l.isEmpty then mapSet cd categoryName [] else cd
    | Option.none => mapSet cd categoryName []
  categoryValues.foldl
    (fun cd v =>
      let inner := (mapGet cd categoryName).getD []
      match mapGet inner v with
      | some n => if n = 0 then mapSet cd categoryName (mapSet inner v 0) else cd
      | Option.none => mapSet cd categoryName (mapSet inner v 0))
    cd

/-- Outcome of the nested expected-digest lookup
`expected_builder_dicts[builder]['expected-results'][image_name]['allowed-digests'][0]`:
either a pair was found, or one of the caught exceptions (`KeyError` /
`TypeError`) occurred, or the uncaught `IndexError` (empty allowed-digests
list) occurred. -/
inductive ExpLookup where
  | found (p : HashPair)
  | caught
  | indexError
deriving DecidableEq, Repr

/-- The nested expected-digest lookup of `_load_actual_and_expected`. -/
def lookupExpected (eds : List (String × ExpectedDoc)) (builder imageName : String) : ExpLookup :=
  match mapGet eds builder with
  | Option.none => ExpLookup.caught
  | some doc =>
    match doc.expectedResults with
    | Option.none => ExpLookup.caught
    | some er =>
      match mapGet er imageName with
      | Option.none => ExpLookup.caught
      | some entry =>
        match entry.allowedDigests with
        | Option.none => ExpLookup.caught
        | some [] => ExpLookup.indexError
        | some (p :: _) => ExpLookup.found p

/-- The effective expected pair used by the reconciliation step: the looked-up
pair, or `[None, None]` when the lookup raised a caught exception. -/
def expectedPairOf (eds : List (String × ExpectedDoc)) (builder imageName : String) : HashPair :=
  match lookupExpected eds builder imageName with
  | ExpLookup.found p => p
  | _ => (PyVal.none, PyVal.none)

/-- A warning logged by `_load_actual_and_expected` for a test with no
expectations: the `(builder, image_name, result_type)` it reports. -/
abbrev Warning := String × String × String

/-- The body of the innermost loop of `_load_actual_and_expected` for one
`(builder, result_type, image_name, actual_image)` tuple: look up the
expected digest (emitting a warning if it is absent and the result type is
neither `no-comparison` nor `failure-ignored`), reclassify to `succeeded`
when expected equals actual, parse the image name, and build the Test Result
Record (digests stringified). -/
def recordOf (eds : List (String × ExpectedDoc)) (builder resultType imageName : String)
    (actualImage : HashPair) : Except PyErr (TestRecord × Option Warning) :=
  if lookupExpected eds builder imageName = ExpLookup.indexError then
    Except.error PyErr.indexError
  else
    let warning : Option Warning :=
      if lookupExpected eds builder imageName = ExpLookup.caught
          && !(resultType == JSONKEY_ACTUALRESULTS_NOCOMPARISON
               || resultType == JSONKEY_ACTUALRESULTS_FAILUREIGNORED) then
        some (builder, imageName, resultType)
      else Option.none
    let expectedImage := expectedPairOf eds builder imageName
    match parseImageName imageName with
    | Option.none => Except.error PyErr.attributeError
    | some (testname, config) =>
      let updatedResultType :=
        if expectedImage = actualImage then JSONKEY_ACTUALRESULTS_SUCCEEDED else resultType
      Except.ok
        ({ builder := builder
           test := testname
           config := config
           resultType := updatedResultType
           actualHashType := actualImage.1
           actualHashDigest := PyVal.str (pyStr actualImage.2)
           expectedHashType := expectedImage.1
           expectedHashDigest := PyVal.str (pyStr expectedImage.2) }, warning)

/-- One `(builder, result_type, image_name, actual_image)` tuple visited by
the nested loops of `_load_actual_and_expected`. -/
structure ActualItem where
  builder : String
  resultType : String
  imageName : String
  actualImage : HashPair
deriving DecidableEq, Repr

/-- `recordOf` applied to one loop tuple. -/
def recordOfItem (eds : List (String × ExpectedDoc)) (it : ActualItem) :
    Except PyErr (TestRecord × Option Warning) :=
  recordOf eds it.builder it.resultType it.imageName it.actualImage

/-- The innermost loop's tuples for one result type of one builder (one tuple
per image name, in sorted order). -/
def imageItems (builder resultType : String) (m : List (String × HashPair)) : List ActualItem :=
  (sortedKeys m).map fun imageName =>
    { builder := builder
      resultType := resultType
      imageName := imageName
      actualImage := (mapGet m imageName).getD (PyVal.none, PyVal.none) }

/-- The tuples for one result type of one builder; a falsy (empty) result map
is skipped (`if not results_of_this_type: continue`). -/
def resultTypeItems (builder : String) (ar : List (String × List (String × HashPair)))
    (resultType : String) : List ActualItem :=
  let m := (mapGet ar resultType).getD []
  if m.isEmpty then [] else imageItems builder resultType m

/-- The tuples for one builder (result types in sorted order). -/
def builderItems (ads : List (String × ActualDoc)) (builder : String) : List ActualItem :=
  let ar := ((mapGet ads builder).getD { actualResults := [] }).actualResults
  (sortedKeys ar).flatMap (resultTypeItems builder ar)

/-- All tuples visited by the nested loops of `_load_actual_and_expected`
(builders in sorted order, then result types, then image names). -/
def actualItems (ads : List (String × ActualDoc)) : List ActualItem :=
  (sortedKeys ads).flatMap (builderItems ads)

/-- The mutable state threaded through the loops of
`_load_actual_and_expected`. -/
structure LoadState where
  categoriesAll : CategoryDict
  categoriesFailures : CategoryDict
  dataAll : List TestRecord
  dataFailures : List TestRecord
  warnings : List Warning
deriving DecidableEq, Repr

/-- The updates `_load_actual_and_expected` performs with one constructed
record: log the warning if any, accumulate into and append to the `all`
view, and, when the effective result type is not `succeeded`, also into the
`failures` view. -/
def stepPure (st : LoadState) (rw : TestRecord × Option Warning) : LoadState :=
  let r := rw.1
  let st1 :=
    { st with
      warnings := match rw.2 with
        | some w => st.warnings ++ [w]
        | Option.none => st.warnings }
  let st2 :=
    { st1 with
      categoriesAll := addToCategoryDict st1.categoriesAll r
      dataAll := st1.dataAll ++ [r] }
  if r.resultType == JSONKEY_ACTUALRESULTS_SUCCEEDED then st2
  else
    { st2 with
      categoriesFailures := addToCategoryDict st2.categoriesFailures r
      dataFailures := st2.dataFailures ++ [r] }

/-- One full iteration of the innermost loop. -/
def processOne (eds : List (String × ExpectedDoc)) (st : LoadState) (it : ActualItem) :
    Except PyErr LoadState :=
  match recordOfItem eds it with
  | Except.error e => Except.error e
  | Except.ok rw => Except.ok (stepPure st rw)

/-- The nested loops of `_load_actual_and_expected`, flattened over the tuple
list. -/
def foldProcess (eds : List (String × ExpectedDoc)) (st : LoadState) :
    List ActualItem → Except PyErr LoadState
  | [] => Except.ok st
  | it :: t =>
    match processOne eds st it with
    | Except.error e => Except.error e
    | Except.ok st' => foldProcess eds st' t

/-- One of the two views held in `self._results`. -/
structure ResultsView where
  categories : CategoryDict
  testData : List TestRecord
deriving DecidableEq, Repr

/-- The immutable snapshot built by `_load_actual_and_expected`: the `all`
and `failures` views.  (The creation timestamp of `Results.__init__` is
wall-clock input and is not modelled.) -/
structure Snapshot where
  all : ResultsView
  failures : ResultsView
deriving DecidableEq, Repr

/-- `Results.get_results_of_type`. -/
def getResultsOfType (s : Snapshot) (t : String) : Option ResultsView :=
  if t = RESULTS_ALL then some s.all
  else if t = RESULTS_FAILURES then some s.failures
  else Option.none

/-- The state at the start of `_load_actual_and_expected`'s loops: empty data
lists and the two category dictionaries pre-seeded with the canonical result
types (all four for `all`, the three non-`succeeded` ones for `failures`). -/
def initialLoadState : LoadState :=
  { categoriesAll := ensureIncludedInCategoryDict [] "resultType"
      [JSONKEY_ACTUALRESULTS_FAILED, JSONKEY_ACTUALRESULTS_FAILUREIGNORED,
       JSONKEY_ACTUALRESULTS_NOCOMPARISON, JSONKEY_ACTUALRESULTS_SUCCEEDED]
    categoriesFailures := ensureIncludedInCategoryDict [] "resultType"
      [JSONKEY_ACTUALRESULTS_FAILED, JSONKEY_ACTUALRESULTS_FAILUREIGNORED,
       JSONKEY_ACTUALRESULTS_NOCOMPARISON]
    dataAll := []
    dataFailures := []
    warnings := [] }

/-- `Results._load_actual_and_expected`: read both trees, run the
reconciliation loops, and package the two views.  The warnings logged along
the way are returned alongside the snapshot. -/
def loadActualAndExpected (actualsRoot : Root ActualDoc) (expectedRoot : Root ExpectedDoc) :
    Except PyErr (Snapshot × List Warning) :=
  match readDictsFromRoot actualsRoot with
  | Except.error e => Except.error e
  | Except.ok actualBuilderDicts =>
    match readDictsFromRoot expectedRoot with
    | Except.error e => Except.error e
    | Except.ok expectedBuilderDicts =>
      match foldProcess expectedBuilderDicts initialLoadState (actualItems actualBuilderDicts) with
      | Except.error e => Except.error e
      | Except.ok st =>
        Except.ok
          ({ all := { categories := st.categoriesAll, testData := st.dataAll }
             failures := { categories := st.categoriesFailures, testData := st.dataFailures } },
           st.warnings)

/-- One entry of the `modifications` list accepted by
`Results.edit_expectations`. -/
structure Modification where
  builder : String
  test : String
  config : String
  expectedHashType : PyVal
  expectedHashDigest : String
deriving DecidableEq, Repr

/-- The body of `edit_expectations`'s loop for one modification: build the
single-element allowed-digests list (parsing the digest with `int()`), look
up the builder's document (a `KeyError` if absent), and upsert the new
expectations under the computed image name, creating the `expected-results`
mapping when it is absent or falsy. -/
def applyMod (m : Modification) (dicts : List (String × ExpectedDoc)) :
    Except PyErr (List (String × ExpectedDoc)) :=
  let imageName := imageFilenameFormatter m.test m.config
  match pyInt? m.expectedHashDigest with
  | Option.none => Except.error (PyErr.valueError m.expectedHashDigest)
  | some n =>
    let newExpectations : ExpectedEntry :=
      { allowedDigests := some [(m.expectedHashType, PyVal.int n)]
        ignoreFailure := some (PyVal.bool false) }
    match mapGet dicts m.builder with
    | Option.none => Except.error (PyErr.keyError m.builder)
    | some builderDict =>
      let builderExpectations := match builderDict.expectedResults with
        | some l => if l.isEmpty then [] else l
        | Option.none => []
      Except.ok (mapSet dicts m.builder
        { expectedResults := some (mapSet builderExpectations imageName newExpectations) })

/-- The modification loop of `edit_expectations`. -/
def applyMods : List Modification → List (String × ExpectedDoc) →
    Except PyErr (List (String × ExpectedDoc))
  | [], dicts => Except.ok dicts
  | m :: t, dicts =>
    match applyMod m dicts with
    | Except.error e => Except.error e
    | Except.ok dicts' => applyMods t dicts'

/-- `Results.edit_expectations`: re-read the expected tree fresh from disk,
apply all modifications in memory, and write the tree back.  The returned
root is the expected tree afterwards; an exception raised while reading or
while applying a modification leaves the tree untouched, while the writer's
set-mismatch error is raised only after the files have been rewritten. -/
def editExpectations (modifications : List Modification) (expectedRoot : Root ExpectedDoc) :
    Root ExpectedDoc × Option PyErr :=
  match readDictsFromRoot expectedRoot with
  | Except.error e => (expectedRoot, some e)
  | Except.ok expectedBuilderDicts =>
    match applyMods modifications expectedBuilderDicts with
    | Except.error e => (expectedRoot, some e)
    | Except.ok dicts' => writeDictsToRoot docTruthy dicts' expectedRoot

/-- `List.mapM` specialised to `Except`, by structural recursion (used to
state the correspondence between the loop tuples and the produced records). -/
def exceptMapM {ε α β : Type} (f : α → Except ε β) : List α → Except ε (List β)
  | [] => Except.ok []
  | x :: t =>
    match f x with
    | Except.error e => Except.error e
    | Except.ok y =>
      match exceptMapM f t with
      | Except.error e => Except.error e
      | Except.ok ys => Except.ok (y :: ys)

deriving instance DecidableEq for Except

/-- The model's string order, non-strict, as a proposition. -/
def strLe (a b : String) : Prop :=
  strLeB a b = true

/-- Lexicographic strict order on loop tuples: by builder, then by original
(pre-reclassification) result type, then by image name. -/
def itemLT (x y : ActualItem) : Prop :=
  strLt x.builder y.builder ∨
    (x.builder = y.builder ∧
      (strLt x.resultType y.resultType ∨
        (x.resultType = y.resultType ∧ strLt x.imageName y.imageName)))

/-- The four canonical result types seeded into the `all` view. -/
def allResultTypes : List String :=
  [JSONKEY_ACTUALRESULTS_FAILED, JSONKEY_ACTUALRESULTS_FAILUREIGNORED,
   JSONKEY_ACTUALRESULTS_NOCOMPARISON, JSONKEY_ACTUALRESULTS_SUCCEEDED]

/-- The three canonical result types seeded into the `failures` view. -/
def failureResultTypes : List String :=
  [JSONKEY_ACTUALRESULTS_FAILED, JSONKEY_ACTUALRESULTS_FAILUREIGNORED,
   JSONKEY_ACTUALRESULTS_NOCOMPARISON]

/-! Concrete sample inputs used by the witness and counterexample theorems. -/

/-- Sample actuals document: two `failed` images and one `no-comparison`
image. -/
def wActualDoc : ActualDoc :=
  { actualResults :=
      [("failed",
        [("t1_8888.png", (PyVal.str "md5", PyVal.str "111")),
         ("t2_8888.png", (PyVal.str "md5", PyVal.str "222"))]),
       ("no-comparison",
        [("t3_565.png", (PyVal.str "md5", PyVal.str "333"))])] }

/-- Sample expected document: a baseline only for `t1_8888.png`, matching its
actual digest (so that record gets reclassified to `succeeded`). -/
def wExpectedDoc : ExpectedDoc :=
  { expectedResults := some
      [("t1_8888.png",
        { allowedDigests := some [(PyVal.str "md5", PyVal.str "111")]
          ignoreFailure := some (PyVal.bool false) })] }

/-- Sample actuals root with a single builder. -/
def wActualsRoot : Root ActualDoc :=
  { isDir := true
    files := [{ dirBase := "BuilderA", filename := "actual-results.json", content := wActualDoc }] }

/-- Sample expected root with a single builder. -/
def wExpectedRoot : Root ExpectedDoc :=
  { isDir := true
    files := [{ dirBase := "BuilderA", filename := "expected-results.json", content := wExpectedDoc }] }

/-- The actual dictionaries read from the sample actuals root. -/
def wAds : List (String × ActualDoc) :=
  match readDictsFromRoot wActualsRoot with
  | Except.ok md => md
  | Except.error _ => []

/-- The expected dictionaries read from the sample expected root. -/
def wEds : List (String × ExpectedDoc) :=
  match readDictsFromRoot wExpectedRoot with
  | Except.ok md => md
  | Except.error _ => []

/-- The snapshot built from the sample roots. -/
def wSnap : Snapshot :=
  match loadActualAndExpected wActualsRoot wExpectedRoot with
  | Except.ok (s, _) => s
  | Except.error _ =>
    { all := { categories := [], testData := [] }
      failures := { categories := [], testData := [] } }

/-- The warnings logged while building the sample snapshot. -/
def wWarnings : List Warning :=
  match loadActualAndExpected wActualsRoot wExpectedRoot with
  | Except.ok (_, w) => w
  | Except.error _ => []

/-- Actuals document used for the experimental (Trybot) builder samples. -/
def w7TrybotActualDoc : ActualDoc :=
  { actualResults := [("failed", [("q_8888.png", (PyVal.str "md5", PyVal.str "9"))])] }

/-- Actuals root containing both a regular builder and a `-Trybot` builder. -/
def w7ActualsRoot : Root ActualDoc :=
  { isDir := true
    files := [{ dirBase := "BuilderA", filename := "actual-results.json", content := wActualDoc },
              { dirBase := "X-Trybot", filename := "actual-results.json", content := w7TrybotActualDoc }] }

/-- The expected-results file sitting in the `-Trybot` builder's directory. -/
def w7TrybotFile : FileEntry ExpectedDoc :=
  { dirBase := "X-Trybot", filename := "expected-results.json", content := wExpectedDoc }

/-- Expected root containing both a regular builder and a `-Trybot` builder. -/
def w7ExpectedRoot : Root ExpectedDoc :=
  { isDir := true
    files := [{ dirBase := "BuilderA", filename := "expected-results.json", content := wExpectedDoc },
              w7TrybotFile] }

/-- The actual dictionaries read from the Trybot-containing actuals root. -/
def w7Ads : List (String × ActualDoc) :=
  match readDictsFromRoot w7ActualsRoot with
  | Except.ok md => md
  | Except.error _ => []

/-- The expected dictionaries read from the Trybot-containing expected root. -/
def w7Eds : List (String × ExpectedDoc) :=
  match readDictsFromRoot w7ExpectedRoot with
  | Except.ok md => md
  | Except.error _ => []

/-- The snapshot built from the Trybot-containing roots. -/
def w7Snap : Snapshot :=
  match loadActualAndExpected w7ActualsRoot w7ExpectedRoot with
  | Except.ok (s, _) => s
  | Except.error _ =>
    { all := { categories := [], testData := [] }
      failures := { categories := [], testData := [] } }

/-- The warnings logged while building the Trybot-containing snapshot. -/
def w7Warnings : List Warning :=
  match loadActualAndExpected w7ActualsRoot w7ExpectedRoot with
  | Except.ok (_, w) => w
  | Except.error _ => []

/-- Expected document on disk for builder `A` in the editor samples. -/
def c3DocA : ExpectedDoc :=
  { expectedResults := some
      [("x_8888.png",
        { allowedDigests := some [(PyVal.str "md5", PyVal.str "7")]
          ignoreFailure := some (PyVal.bool false) })] }

/-- Expected document supplied for builder `B` (which has no file on disk)
in the writer sample. -/
def c3DocB : ExpectedDoc :=
  { expectedResults := some
      [("y_8888.png",
        { allowedDigests := some [(PyVal.str "md5", PyVal.str "8")]
          ignoreFailure := some (PyVal.bool false) })] }

/-- Expected root holding a file for builder `A` only. -/
def c3Root : Root ExpectedDoc :=
  { isDir := true
    files := [{ dirBase := "A", filename := "expected-results.json", content := c3DocA }] }

/-- A modification for builder `A` (which has a file on disk). -/
def c3ModA : Modification :=
  { builder := "A", test := "t", config := "8888",
    expectedHashType := PyVal.str "md5", expectedHashDigest := "1" }

/-- A modification for builder `B` (which has no file on disk). -/
def c3ModB : Modification :=
  { builder := "B", test := "t", config := "8888",
    expectedHashType := PyVal.str "md5", expectedHashDigest := "2" }

/-- A modifications list touching both builders `A` and `B`. -/
def c3Mods : List Modification :=
  [c3ModA, c3ModB]

/-- A writer input mapping holding documents for builders `A` and `B`. -/
def c3Meta : List (String × ExpectedDoc) :=
  [("A", c3DocA), ("B", c3DocB)]

/-- The expected dictionaries read from `c3Root`. -/
def c3Dicts : List (String × ExpectedDoc) :=
  match readDictsFromRoot c3Root with
  | Except.ok md => md
  | Except.error _ => []

/-- Round-trip sample: expected root for builder `B` with one pre-existing
baseline. -/
def c4Doc : ExpectedDoc :=
  { expectedResults := some
      [("old_8888.png",
        { allowedDigests := some [(PyVal.str "md5", PyVal.str "999")]
          ignoreFailure := some (PyVal.bool false) })] }

/-- Round-trip sample root. -/
def c4Root : Root ExpectedDoc :=
  { isDir := true
    files := [{ dirBase := "B", filename := "expected-results.json", content := c4Doc }] }

/-- The round-trip modification from the spec's testable property. -/
def c4Mods : List Modification :=
  [{ builder := "B", test := "t", config := "8888",
     expectedHashType := PyVal.str "bitmap-64bitMD5", expectedHashDigest := "123" }]

/-- The root and error after applying the round-trip edit. -/
def c4After : Root ExpectedDoc × Option PyErr :=
  editExpectations c4Mods c4Root

/-- The entry stored for image `t_8888.png` under builder `B` after the
round-trip edit, as seen by re-reading the expected tree. -/
def c4Entry : Option ExpectedEntry :=
  match readDictsFromRoot c4After.1 with
  | Except.ok md => (mapGet md "B").bind (fun d => d.expectedResults.bind (fun er => mapGet er "t_8888.png"))
  | Except.error _ => Option.none

/-- Scenario from the spec: an actual `no-comparison` result with no expected
entry. -/
def c5ActualDoc : ActualDoc :=
  { actualResults := [("no-comparison", [("test2_565.png", (PyVal.str "md5", PyVal.str "222"))])] }

/-- Actuals root for the `no-comparison` scenario. -/
def c5ActualsRoot : Root ActualDoc :=
  { isDir := true
    files := [{ dirBase := "builderA", filename := "actual-results.json", content := c5ActualDoc }] }

/-- Expected root for the `no-comparison` scenario: the builder's expected
document has an empty `expected-results` mapping, so no entry exists for the
image. -/
def c5ExpectedRoot : Root ExpectedDoc :=
  { isDir := true
    files := [{ dirBase := "builderA", filename := "expected-results.json",
                content := { expectedResults := some [] } }] }

/-- The `all` view's records for the `no-comparison` scenario. -/
def c5TestData : List TestRecord :=
  match loadActualAndExpected c5ActualsRoot c5ExpectedRoot with
  | Except.ok (s, _) => s.all.testData
  | Except.error _ => []

/-- The warnings logged in the `no-comparison` scenario. -/
def c5Warnings : List Warning :=
  match loadActualAndExpected c5ActualsRoot c5ExpectedRoot with
  | Except.ok (_, w) => w
  | Except.error _ => [("", "", "")]

/-- The expected-digest fields of the records of the `no-comparison`
scenario. -/
def c5ExpectedDigests : List PyVal :=
  c5TestData.map (fun r => r.expectedHashDigest)

/-! Association-list (Python dict) lemmas. -/

theorem mapGet_mapSet {α : Type} (l : List (String × α)) (k : String) (v : α) (q : String) :
    mapGet (mapSet l k v) q = if k = q then some v else mapGet l q := by
  induction l with
  | nil => simp [mapSet, mapGet]
  | cons hd t ih =>
    obtain ⟨k', v'⟩ := hd
    simp only [mapSet]
    by_cases hk : k' = k
    · subst hk
      simp only [if_pos rfl, mapGet]
      by_cases hq : k' = q <;> simp [hq]
    · rw [if_neg hk]
      simp only [mapGet]
      by_cases hq : k' = q
      · have hkq : ¬ k = q := fun h => hk (hq.trans h.symm)
        simp [hq, hkq]
      · simp [hq, ih]

theorem mapGet_eq_none_iff {α : Type} (l : List (String × α)) (k : String) :
    mapGet l k = Option.none ↔ k ∉ l.map Prod.fst := by
  induction l with
  | nil => simp [mapGet]
  | cons hd t ih =>
    obtain ⟨k', v'⟩ := hd
    simp only [mapGet, List.map_cons, List.mem_cons]
    by_cases h : k' = k
    · simp [h]
    · have h' : ¬ k = k' := fun hh => h hh.symm
      simp [h, h', ih]

/-! Sorting lemmas: the model's `sorted()` is an insertion sort over the
model's lexicographic string order. -/

theorem mem_insertSorted {x a : String} {l : List String} :
    x ∈ insertSorted a l ↔ x = a ∨ x ∈ l := by
  induction l with
  | nil => simp [insertSorted]
  | cons b t ih =>
    simp only [insertSorted]
    split
    · simp [List.mem_cons]
    · simp only [List.mem_cons, ih]
      tauto

theorem insertSorted_perm (a : String) (l : List String) :
    List.Perm (insertSorted a l) (a :: l) := by
  induction l with
  | nil => simp [insertSorted]
  | cons b t ih =>
    simp only [insertSorted]
    split
    · exact List.Perm.refl _
    · exact (ih.cons b).trans (List.Perm.swap a b t)

theorem sortStrings_perm (l : List String) : List.Perm (sortStrings l) l := by
  induction l with
  | nil => exact List.Perm.refl _
  | cons a t ih =>
    have h : sortStrings (a :: t) = insertSorted a (sortStrings t) := rfl
    rw [h]
    exact (insertSorted_perm a (sortStrings t)).trans (ih.cons a)

theorem mem_sortStrings {x : String} {l : List String} : x ∈ sortStrings l ↔ x ∈ l :=
  (sortStrings_perm l).mem_iff

theorem lexLe_total (a b : List Char) : lexLeChars a b = true ∨ lexLeChars b a = true := by
  induction a generalizing b with
  | nil => left; simp [lexLeChars]
  | cons c s ih =>
    cases b with
    | nil => right; simp [lexLeChars]
    | cons d t =>
      simp only [lexLeChars]
      rcases Nat.lt_trichotomy c.toNat d.toNat with h | h | h
      · left; simp [h]
      · have h1 : ¬ c.toNat < d.toNat := by omega
        have h2 : ¬ d.toNat < c.toNat := by omega
        simp only [if_neg h1, if_neg h2]
        exact ih t
      · right; simp [h]

theorem lexLe_trans {a b c : List Char} (h1 : lexLeChars a b = true)
    (h2 : lexLeChars b c = true) : lexLeChars a c = true := by
  induction a generalizing b c with
  | nil => simp [lexLeChars]
  | cons x s ih =>
    cases b with
    | nil => simp [lexLeChars] at h1
    | cons y t =>
      cases c with
      | nil => simp [lexLeChars] at h2
      | cons z u =>
        simp only [lexLeChars] at h1 h2 ⊢
        by_cases hxy : x.toNat < y.toNat
        · by_cases hyz : y.toNat < z.toNat
          · have hxz : x.toNat < z.toNat := by omega
            simp [hxz]
          · by_cases hzy : z.toNat < y.toNat
            · simp [hyz, hzy] at h2
            · have hxz : x.toNat < z.toNat := by omega
              simp [hxz]
        · by_cases hyx : y.toNat < x.toNat
          · simp [hxy, hyx] at h1
          · simp only [if_neg hxy, if_neg hyx] at h1
            by_cases hyz : y.toNat < z.toNat
            · have hxz : x.toNat < z.toNat := by omega
              simp [hxz]
            · by_cases hzy : z.toNat < y.toNat
              · simp [hyz, hzy] at h2
              · simp only [if_neg hyz, if_neg hzy] at h2
                have hnxz : ¬ x.toNat < z.toNat := by omega
                have hnzx : ¬ z.toNat < x.toNat := by omega
                simp only [if_neg hnxz, if_neg hnzx]
                exact ih h1 h2

theorem strLe_total (a b : String) : strLe a b ∨ strLe b a :=
  lexLe_total a.data b.data

theorem strLe_trans {a b c : String} (h1 : strLe a b) (h2 : strLe b c) : strLe a c :=
  lexLe_trans h1 h2

theorem pairwise_insertSorted {a : String} {l : List String}
    (h : l.Pairwise strLe) : (insertSorted a l).Pairwise strLe := by
  induction l with
  | nil => simp [insertSorted]
  | cons b t ih =>
    rcases List.pairwise_cons.mp h with ⟨hb, ht⟩
    simp only [insertSorted]
    split
    · rename_i hab
      refine List.pairwise_cons.mpr ⟨?_, h⟩
      intro x hx
      rcases List.mem_cons.mp hx with rfl | hx
      · exact hab
      · exact strLe_trans hab (hb x hx)
    · rename_i hab
      have hba : strLe b a := by
        rcases strLe_total a b with hh | hh
        · exact absurd hh hab
        · exact hh
      refine List.pairwise_cons.mpr ⟨?_, ih ht⟩
      intro x hx
      rcases mem_insertSorted.mp hx with rfl | hx
      · exact hba
      · exact hb x hx

theorem sortStrings_pairwise (l : List String) : (sortStrings l).Pairwise strLe := by
  induction l with
  | nil => simp [sortStrings]
  | cons a t ih => exact pairwise_insertSorted ih

theorem sortedKeys_nodup {α : Type} (l : List (String × α)) : (sortedKeys l).Nodup :=
  ((sortStrings_perm (l.map Prod.fst).dedup).symm).nodup (List.nodup_dedup _)

theorem sortedKeys_pairwise_strLt {α : Type} (l : List (String × α)) :
    (sortedKeys l).Pairwise strLt := by
  have h1 : (sortedKeys l).Pairwise strLe := sortStrings_pairwise _
  have h2 : (sortedKeys l).Pairwise (fun a b => a ≠ b) := sortedKeys_nodup l
  exact (h1.and h2).imp (fun h => ⟨h.1, h.2⟩)

theorem mem_sortedKeys {α : Type} {l : List (String × α)} {k : String} :
    k ∈ sortedKeys l ↔ k ∈ l.map Prod.fst := by
  rw [sortedKeys, mem_sortStrings, List.mem_dedup]

theorem pairwise_flatMap_of {α β : Type} {R : β → β → Prop} {S : α → α → Prop}
    {l : List α} {f : α → List β}
    (hl : l.Pairwise S)
    (hin : ∀ a ∈ l, (f a).Pairwise R)
    (hcross : ∀ a b, S a b → ∀ x ∈ f a, ∀ y ∈ f b, R x y) :
    (l.flatMap f).Pairwise R := by
  induction l with
  | nil => simp
  | cons a t ih =>
    rcases List.pairwise_cons.mp hl with ⟨ha, ht⟩
    rw [List.flatMap_cons]
    refine List.pairwise_append.mpr
      ⟨hin a (List.mem_cons_self a t),
       ih ht (fun b hb => hin b (List.mem_cons_of_mem a hb)), ?_⟩
    intro x hx y hy
    rcases List.mem_flatMap.mp hy with ⟨b, hb, hyb⟩
    exact hcross a b (ha b hb) x hx y hyb

/-! Lemmas about the loop-tuple lists. -/

theorem mem_imageItems {x : ActualItem} {builder rt : String} {m : List (String × HashPair)}
    (h : x ∈ imageItems builder rt m) :
    x.builder = builder ∧ x.resultType = rt ∧ x.imageName ∈ sortedKeys m := by
  rcases List.mem_map.mp h with ⟨img, himg, hx⟩
  subst hx
  exact ⟨rfl, rfl, himg⟩

theorem pairwise_imageItems (builder rt : String) (m : List (String × HashPair)) :
    (imageItems builder rt m).Pairwise itemLT := by
  unfold imageItems
  rw [List.pairwise_map]
  refine (sortedKeys_pairwise_strLt m).imp ?_
  intro a b hab
  exact Or.inr ⟨rfl, Or.inr ⟨rfl, hab⟩⟩

theorem mem_resultTypeItems {x : ActualItem} {builder : String}
    {ar : List (String × List (String × HashPair))} {rt : String}
    (h : x ∈ resultTypeItems builder ar rt) :
    x.builder = builder ∧ x.resultType = rt := by
  simp only [resultTypeItems] at h
  split at h
  · simp at h
  · rcases mem_imageItems h with ⟨h1, h2, _⟩
    exact ⟨h1, h2⟩

theorem pairwise_resultTypeItems (builder : String)
    (ar : List (String × List (String × HashPair))) (rt : String) :
    (resultTypeItems builder ar rt).Pairwise itemLT := by
  simp only [resultTypeItems]
  split
  · exact List.Pairwise.nil
  · exact pairwise_imageItems builder rt _

theorem mem_builderItems {x : ActualItem} {ads : List (String × ActualDoc)} {builder : String}
    (h : x ∈ builderItems ads builder) : x.builder = builder := by
  simp only [builderItems] at h
  rcases List.mem_flatMap.mp h with ⟨rt, _, hx⟩
  exact (mem_resultTypeItems hx).1

theorem pairwise_builderItems (ads : List (String × ActualDoc)) (builder : String) :
    (builderItems ads builder).Pairwise itemLT := by
  simp only [builderItems]
  apply pairwise_flatMap_of (sortedKeys_pairwise_strLt _)
  · intro rt _
    exact pairwise_resultTypeItems builder _ rt
  · intro rt1 rt2 h12 x hx y hy
    rcases mem_resultTypeItems hx with ⟨hxb, hxr⟩
    rcases mem_resultTypeItems hy with ⟨hyb, hyr⟩
    refine Or.inr ⟨hxb.trans hyb.symm, Or.inl ?_⟩
    rw [hxr, hyr]
    exact h12

theorem mem_actualItems_builder {x : ActualItem} {ads : List (String × ActualDoc)}
    (h : x ∈ actualItems ads) : x.builder ∈ ads.map Prod.fst := by
  simp only [actualItems] at h
  rcases List.mem_flatMap.mp h with ⟨b, hb, hx⟩
  rw [mem_builderItems hx]
  exact mem_sortedKeys.mp hb

theorem actualItems_pairwise (ads : List (String × ActualDoc)) :
    (actualItems ads).Pairwise itemLT := by
  simp only [actualItems]
  apply pairwise_flatMap_of (sortedKeys_pairwise_strLt _)
  · intro b _
    exact pairwise_builderItems ads b
  · intro b1 b2 h12 x hx y hy
    refine Or.inl ?_
    rw [mem_builderItems hx, mem_builderItems hy]
    exact h12

/-! Lemmas characterizing the reconciliation fold. -/

theorem exceptMapM_ok_mem {ε α β : Type} {f : α → Except ε β} {l : List α} {ys : List β}
    (h : exceptMapM f l = Except.ok ys) {y : β} (hy : y ∈ ys) :
    ∃ x ∈ l, f x = Except.ok y := by
  induction l generalizing ys with
  | nil =>
    simp only [exceptMapM, Except.ok.injEq] at h
    subst h
    simp at hy
  | cons x t ih =>
    cases hfx : f x with
    | error e => simp [exceptMapM, hfx] at h
    | ok y0 =>
      cases hmt : exceptMapM f t with
      | error e => simp [exceptMapM, hfx, hmt] at h
      | ok ys0 =>
        simp only [exceptMapM, hfx, hmt, Except.ok.injEq] at h
        subst h
        rcases List.mem_cons.mp hy with rfl | hmem
        · exact ⟨x, List.mem_cons_self x t, hfx⟩
        · rcases ih hmt hmem with ⟨x', hx', hfx'⟩
          exact ⟨x', List.mem_cons_of_mem x hx', hfx'⟩

theorem foldProcess_ok {eds : List (String × ExpectedDoc)} {st st' : LoadState}
    {items : List ActualItem}
    (h : foldProcess eds st items = Except.ok st') :
    ∃ rws, exceptMapM (recordOfItem eds) items = Except.ok rws ∧
      st' = rws.foldl stepPure st := by
  induction items generalizing st with
  | nil =>
    simp only [foldProcess, Except.ok.injEq] at h
    exact ⟨[], rfl, by simp [h]⟩
  | cons it t ih =>
    cases hr : recordOfItem eds it with
    | error e =>
      have hthis : foldProcess eds st (it :: t) = Except.error e := by
        simp [foldProcess, processOne, hr]
      rw [hthis] at h
      exact absurd h (by simp)
    | ok rcd =>
      have hstep : foldProcess eds st (it :: t) = foldProcess eds (stepPure st rcd) t := by
        simp [foldProcess, processOne, hr]
      rw [hstep] at h
      rcases ih h with ⟨rws, hmap, hfold⟩
      refine ⟨rcd :: rws, ?_, ?_⟩
      · simp [exceptMapM, hr, hmap]
      · simp [hfold, List.foldl_cons]

theorem stepPure_dataAll (st : LoadState) (rcd : TestRecord × Option Warning) :
    (stepPure st rcd).dataAll = st.dataAll ++ [rcd.1] := by
  obtain ⟨r, w⟩ := rcd
  cases w <;> simp only [stepPure] <;> split <;> rfl

theorem stepPure_categoriesAll (st : LoadState) (rcd : TestRecord × Option Warning) :
    (stepPure st rcd).categoriesAll = addToCategoryDict st.categoriesAll rcd.1 := by
  obtain ⟨r, w⟩ := rcd
  cases w <;> simp only [stepPure] <;> split <;> rfl

theorem stepPure_dataFailures (st : LoadState) (rcd : TestRecord × Option Warning) :
    (stepPure st rcd).dataFailures = st.dataFailures ++
      (if rcd.1.resultType == JSONKEY_ACTUALRESULTS_SUCCEEDED then [] else [rcd.1]) := by
  obtain ⟨r, w⟩ := rcd
  cases w <;> simp only [stepPure] <;> split <;> simp_all

theorem stepPure_categoriesFailures (st : LoadState) (rcd : TestRecord × Option Warning) :
    (stepPure st rcd).categoriesFailures =
      (if rcd.1.resultType == JSONKEY_ACTUALRESULTS_SUCCEEDED then st.categoriesFailures
       else addToCategoryDict st.categoriesFailures rcd.1) := by
  obtain ⟨r, w⟩ := rcd
  cases w <;> simp only [stepPure] <;> split <;> simp_all

theorem foldl_stepPure_dataAll (rws : List (TestRecord × Option Warning)) (st : LoadState) :
    (rws.foldl stepPure st).dataAll = st.dataAll ++ rws.map Prod.fst := by
  induction rws generalizing st with
  | nil => simp
  | cons rcd t ih =>
    simp only [List.foldl_cons, ih, stepPure_dataAll, List.map_cons]
    rw [List.append_assoc]
    rfl

theorem foldl_stepPure_dataFailures (rws : List (TestRecord × Option Warning)) (st : LoadState) :
    (rws.foldl stepPure st).dataFailures = st.dataFailures ++
      (rws.map Prod.fst).filter (fun r => !(r.resultType == JSONKEY_ACTUALRESULTS_SUCCEEDED)) := by
  induction rws generalizing st with
  | nil => simp
  | cons rcd t ih =>
    simp only [List.foldl_cons, ih, stepPure_dataFailures, List.map_cons, List.filter_cons]
    by_cases h : rcd.1.resultType == JSONKEY_ACTUALRESULTS_SUCCEEDED
    · simp [h]
    · simp only [h]
      simp [List.append_assoc]

theorem foldl_stepPure_categoriesAll (rws : List (TestRecord × Option Warning)) (st : LoadState) :
    (rws.foldl stepPure st).categoriesAll =
      (rws.map Prod.fst).foldl addToCategoryDict st.categoriesAll := by
  induction rws generalizing st with
  | nil => simp
  | cons rcd t ih =>
    simp only [List.foldl_cons, ih, stepPure_categoriesAll, List.map_cons]

theorem foldl_stepPure_categoriesFailures (rws : List (TestRecord × Option Warning)) (st : LoadState) :
    (rws.foldl stepPure st).categoriesFailures =
      ((rws.map Prod.fst).filter
        (fun r => !(r.resultType == JSONKEY_ACTUALRESULTS_SUCCEEDED))).foldl
        addToCategoryDict st.categoriesFailures := by
  induction rws generalizing st with
  | nil => simp
  | cons rcd t ih =>
    simp only [List.foldl_cons, ih, stepPure_categoriesFailures, List.map_cons, List.filter_cons]
    by_cases h : rcd.1.resultType == JSONKEY_ACTUALRESULTS_SUCCEEDED
    · simp [h]
    · simp [h]

theorem load_ok_spec {aRoot : Root ActualDoc} {eRoot : Root ExpectedDoc}
    {ads : List (String × ActualDoc)} {eds : List (String × ExpectedDoc)}
    {snap : Snapshot} {ws : List Warning}
    (h1 : readDictsFromRoot aRoot = Except.ok ads)
    (h2 : readDictsFromRoot eRoot = Except.ok eds)
    (h3 : loadActualAndExpected aRoot eRoot = Except.ok (snap, ws)) :
    ∃ rws, exceptMapM (recordOfItem eds) (actualItems ads) = Except.ok rws ∧
      snap.all.testData = rws.map Prod.fst ∧
      snap.failures.testData = (rws.map Prod.fst).filter
        (fun r => !(r.resultType == JSONKEY_ACTUALRESULTS_SUCCEEDED)) ∧
      snap.all.categories = (rws.map Prod.fst).foldl addToCategoryDict
        initialLoadState.categoriesAll ∧
      snap.failures.categories = ((rws.map Prod.fst).filter
        (fun r => !(r.resultType == JSONKEY_ACTUALRESULTS_SUCCEEDED))).foldl
        addToCategoryDict initialLoadState.categoriesFailures := by
  unfold loadActualAndExpected at h3
  rw [h1, h2] at h3
  dsimp only at h3
  cases hf : foldProcess eds initialLoadState (actualItems ads) with
  | error e =>
    rw [hf] at h3
    exact absurd h3 (by simp)
  | ok st =>
    rw [hf] at h3
    simp only [Except.ok.injEq, Prod.mk.injEq] at h3
    obtain ⟨hsnap, hws⟩ := h3
    rcases foldProcess_ok hf with ⟨rws, hmap, hst⟩
    refine ⟨rws, hmap, ?_, ?_, ?_, ?_⟩
    · rw [← hsnap, hst]
      have := foldl_stepPure_dataAll rws initialLoadState
      simpa [initialLoadState] using this
    · rw [← hsnap, hst]
      have := foldl_stepPure_dataFailures rws initialLoadState
      simpa [initialLoadState] using this
    · rw [← hsnap, hst]
      exact foldl_stepPure_categoriesAll rws initialLoadState
    · rw [← hsnap, hst]
      exact foldl_stepPure_categoriesFailures rws initialLoadState

theorem expectedPairOf_caught {eds : List (String × ExpectedDoc)} {builder imageName : String}
    (h : lookupExpected eds builder imageName = ExpLookup.caught) :
    expectedPairOf eds builder imageName = (PyVal.none, PyVal.none) := by
  unfold expectedPairOf
  rw [h]

theorem recordOf_ok {eds : List (String × ExpectedDoc)} {builder resultType imageName : String}
    {actualImage : HashPair} {r : TestRecord} {w : Option Warning}
    (h : recordOf eds builder resultType imageName actualImage = Except.ok (r, w)) :
    r.builder = builder ∧
    r.resultType = (if expectedPairOf eds builder imageName = actualImage
      then JSONKEY_ACTUALRESULTS_SUCCEEDED else resultType) ∧
    r.actualHashType = actualImage.1 ∧
    r.actualHashDigest = PyVal.str (pyStr actualImage.2) ∧
    r.expectedHashType = (expectedPairOf eds builder imageName).1 ∧
    r.expectedHashDigest = PyVal.str (pyStr (expectedPairOf eds builder imageName).2) := by
  unfold recordOf at h
  split at h
  · exact absurd h (by simp)
  · cases hp : parseImageName imageName with
    | none => simp [hp] at h
    | some tc =>
      obtain ⟨tname, cfg⟩ := tc
      simp only [hp, Except.ok.injEq, Prod.mk.injEq] at h
      obtain ⟨hr, hw⟩ := h
      subst hr
      exact ⟨rfl, rfl, rfl, rfl, rfl, rfl⟩

/-! Category-dictionary lemmas. -/

theorem addOneCategory_mono {cd : CategoryDict} {cat v : String} {n : Nat}
    (h : innerGet cd cat v = some n) (cat' v' : String) :
    ∃ m, n ≤ m ∧ innerGet (addOneCategory cd cat' v') cat v = some m := by
  by_cases hv : v' = ""
  · exact ⟨n, Nat.le_refl n, by simpa [addOneCategory, hv] using h⟩
  · have hl : ∃ l, mapGet cd cat = some l ∧ mapGet l v = some n := by
      unfold innerGet at h
      cases hg : mapGet cd cat with
      | none => rw [hg] at h; simp at h
      | some l =>
        rw [hg] at h
        simp at h
        exact ⟨l, rfl, h⟩
    rcases hl with ⟨l, hgl, hlv⟩
    by_cases hc : cat' = cat
    · subst hc
      have hle : l.isEmpty = false := by
        cases l with
        | nil => simp [mapGet] at hlv
        | cons p t => rfl
      by_cases hvv : v' = v
      · subst hvv
        refine ⟨n + 1, Nat.le_succ n, ?_⟩
        simp only [addOneCategory, if_neg hv, hgl, hle, innerGet, mapGet_mapSet, if_pos rfl]
        simp [hlv, mapGet_mapSet]
      · refine ⟨n, Nat.le_refl n, ?_⟩
        simp only [addOneCategory, if_neg hv, hgl, hle, innerGet, mapGet_mapSet, if_pos rfl]
        simp [mapGet_mapSet, hvv, hlv]
    · refine ⟨n, Nat.le_refl n, ?_⟩
      unfold innerGet
      simp only [addOneCategory, if_neg hv, mapGet_mapSet, if_neg hc]
      exact h

theorem addOneCategory_none {cd : CategoryDict} {cat v : String}
    (h : innerGet cd cat v = Option.none) (cat' v' : String)
    (hne : cat' ≠ cat ∨ v' ≠ v) :
    innerGet (addOneCategory cd cat' v') cat v = Option.none := by
  by_cases hv : v' = ""
  · simpa [addOneCategory, hv] using h
  · by_cases hc : cat' = cat
    · subst hc
      have hvv : v' ≠ v := by
        rcases hne with h1 | h1
        · exact absurd rfl h1
        · exact h1
      unfold innerGet at h
      cases hg : mapGet cd cat' with
      | none =>
        simp only [addOneCategory, if_neg hv, hg, innerGet, mapGet_mapSet, if_pos rfl]
        simp [mapGet_mapSet, hvv, mapGet]
      | some l =>
        rw [hg] at h
        simp only [Option.some_bind] at h
        by_cases hle : l.isEmpty <;>
          simp only [addOneCategory, if_neg hv, hg, hle, innerGet, mapGet_mapSet, if_pos rfl] <;>
          simp [mapGet_mapSet, hvv, mapGet, h]
    · unfold innerGet at h ⊢
      simp only [addOneCategory, if_neg hv, mapGet_mapSet, if_neg hc]
      exact h

theorem addToCategoryDict_eq (cd : CategoryDict) (r : TestRecord) :
    addToCategoryDict cd r =
      addOneCategory (addOneCategory (addOneCategory
        (addOneCategory cd "builder" r.builder) "test" r.test) "config" r.config)
        "resultType" r.resultType := by
  simp only [addToCategoryDict, CATEGORIES_TO_SUMMARIZE, List.foldl_cons, List.foldl_nil,
    categoryValueOf]

theorem addToCategoryDict_mono {cd : CategoryDict} {cat v : String} {n : Nat}
    (h : innerGet cd cat v = some n) (r : TestRecord) :
    ∃ m, n ≤ m ∧ innerGet (addToCategoryDict cd r) cat v = some m := by
  rw [addToCategoryDict_eq]
  rcases addOneCategory_mono h "builder" r.builder with ⟨m1, h1, hh1⟩
  rcases addOneCategory_mono hh1 "test" r.test with ⟨m2, h2, hh2⟩
  rcases addOneCategory_mono hh2 "config" r.config with ⟨m3, h3, hh3⟩
  rcases addOneCategory_mono hh3 "resultType" r.resultType with ⟨m4, h4, hh4⟩
  exact ⟨m4, Nat.le_trans h1 (Nat.le_trans h2 (Nat.le_trans h3 h4)), hh4⟩

theorem foldl_addToCategoryDict_mono {recs : List TestRecord} {cd : CategoryDict}
    {cat v : String} {n : Nat} (h : innerGet cd cat v = some n) :
    ∃ m, n ≤ m ∧ innerGet (recs.foldl addToCategoryDict cd) cat v = some m := by
  induction recs generalizing cd n with
  | nil => exact ⟨n, Nat.le_refl n, h⟩
  | cons r t ih =>
    rcases addToCategoryDict_mono h r with ⟨m1, h1, hh1⟩
    rcases ih hh1 with ⟨m2, h2, hh2⟩
    exact ⟨m2, Nat.le_trans h1 h2, by simpa using hh2⟩

theorem addToCategoryDict_builder_none {cd : CategoryDict} {b : String}
    (h : innerGet cd "builder" b = Option.none) {r : TestRecord} (hr : r.builder ≠ b) :
    innerGet (addToCategoryDict cd r) "builder" b = Option.none := by
  rw [addToCategoryDict_eq]
  have s1 := addOneCategory_none h "builder" r.builder (Or.inr hr)
  have s2 := addOneCategory_none s1 "test" r.test
    (Or.inl (by decide : ("test" : String) ≠ "builder"))
  have s3 := addOneCategory_none s2 "config" r.config
    (Or.inl (by decide : ("config" : String) ≠ "builder"))
  exact addOneCategory_none s3 "resultType" r.resultType
    (Or.inl (by decide : ("resultType" : String) ≠ "builder"))

theorem foldl_addToCategoryDict_builder_none {recs : List TestRecord} {cd : CategoryDict}
    {b : String} (h : innerGet cd "builder" b = Option.none)
    (hall : ∀ r ∈ recs, r.builder ≠ b) :
    innerGet (recs.foldl addToCategoryDict cd) "builder" b = Option.none := by
  induction recs generalizing cd with
  | nil => exact h
  | cons r t ih =>
    simp only [List.foldl_cons]
    exact ih (addToCategoryDict_builder_none h (hall r (List.mem_cons_self r t)))
      (fun x hx => hall x (List.mem_cons_of_mem r hx))

theorem initial_categoriesAll_builder_none (b : String) :
    innerGet initialLoadState.categoriesAll "builder" b = Option.none := by
  have h : mapGet initialLoadState.categoriesAll "builder" =
      (Option.none : Option (List (String × Nat))) := by decide
  simp [innerGet, h]

theorem initial_categoriesFailures_builder_none (b : String) :
    innerGet initialLoadState.categoriesFailures "builder" b = Option.none := by
  have h : mapGet initialLoadState.categoriesFailures "builder" =
      (Option.none : Option (List (String × Nat))) := by decide
  simp [innerGet, h]

/-! Reader, writer and editor lemmas. -/

theorem readDicts_ok_of_isDir {α : Type} {root : Root α} (h : root.isDir = true) :
    ∃ md, readDictsFromRoot root = Except.ok md := by
  simp [readDictsFromRoot, h]

theorem readFold_trybot_aux {α : Type} (files : List (FileEntry α)) (acc : List (String × α))
    {b : String} (hb : strEndsWith b "-Trybot" = true) (hacc : mapGet acc b = Option.none) :
    mapGet (files.foldl
      (fun md f =>
        if matchesJson f.filename && !(strEndsWith f.dirBase "-Trybot") then
          mapSet md f.dirBase f.content
        else md)
      acc) b = Option.none := by
  induction files generalizing acc with
  | nil => exact hacc
  | cons f t ih =>
    simp only [List.foldl_cons]
    apply ih
    by_cases hc : ((matchesJson f.filename && !(strEndsWith f.dirBase "-Trybot")) = true)
    · rw [if_pos hc, mapGet_mapSet]
      have hne : f.dirBase ≠ b := by
        intro hEq
        rw [hEq] at hc
        simp [hb] at hc
      rw [if_neg hne]
      exact hacc
    · rw [if_neg hc]
      exact hacc

theorem readDicts_trybot_none {α : Type} {root : Root α} {md : List (String × α)}
    (h : readDictsFromRoot root = Except.ok md)
    {b : String} (hb : strEndsWith b "-Trybot" = true) : mapGet md b = Option.none := by
  unfold readDictsFromRoot at h
  split at h
  · exact absurd h (by simp)
  · simp only [Except.ok.injEq] at h
    subst h
    exact readFold_trybot_aux root.files [] hb rfl

theorem writeFileStep_trybot {α : Type} (truthy : α → Bool) (meta : List (String × α))
    (f : FileEntry α) (h : strEndsWith f.dirBase "-Trybot" = true) :
    writeFileStep truthy meta f = (f, Option.none) := by
  simp [writeFileStep, h]

theorem writeFileStep_write {α : Type} (truthy : α → Bool) (meta : List (String × α))
    (f : FileEntry α) {d : α}
    (hm : matchesJson f.filename = true) (ht : strEndsWith f.dirBase "-Trybot" = false)
    (hg : mapGet meta f.dirBase = some d) (htr : truthy d = true) :
    writeFileStep truthy meta f = ({ f with content := d }, some f.dirBase) := by
  simp [writeFileStep, hm, ht, hg, htr]

theorem writeFileStep_snd_builder {α : Type} {truthy : α → Bool} {meta : List (String × α)}
    {f : FileEntry α} {s : String}
    (h : (writeFileStep truthy meta f).2 = some s) : s = f.dirBase := by
  unfold writeFileStep at h
  by_cases hc : ((matchesJson f.filename && !(strEndsWith f.dirBase "-Trybot")) = true)
  · rw [if_pos hc] at h
    cases hg : mapGet meta f.dirBase with
    | none =>
      rw [hg] at h
      dsimp only at h
      exact absurd h (by simp)
    | some d =>
      rw [hg] at h
      dsimp only at h
      by_cases ht : truthy d = true
      · rw [if_pos ht] at h
        have h' : some f.dirBase = some s := h
        exact (Option.some.inj h').symm
      · rw [if_neg ht] at h
        exact absurd h (by simp)
  · rw [if_neg hc] at h
    exact absurd h (by simp)

theorem writeDicts_files {α : Type} (truthy : α → Bool) (meta : List (String × α))
    (root : Root α) (h : root.isDir = true) :
    (writeDictsToRoot truthy meta root).1.files =
      root.files.map (fun f => (writeFileStep truthy meta f).1) := by
  simp [writeDictsToRoot, h]

theorem writeDicts_trybot_file {α : Type} (truthy : α → Bool) (meta : List (String × α))
    (root : Root α) (i : Nat) (f : FileEntry α)
    (hf : root.files[i]? = some f) (hb : strEndsWith f.dirBase "-Trybot" = true) :
    (writeDictsToRoot truthy meta root).1.files[i]? = some f := by
  cases hd : root.isDir with
  | false => simp [writeDictsToRoot, hd, hf]
  | true =>
    rw [writeDicts_files truthy meta root hd, List.getElem?_map, hf]
    simp [writeFileStep_trybot truthy meta f hb]

theorem writeDicts_updates {α : Type} (truthy : α → Bool) (meta : List (String × α))
    (root : Root α) (i : Nat) (f : FileEntry α) (d : α)
    (hdir : root.isDir = true)
    (hf : root.files[i]? = some f) (hm : matchesJson f.filename = true)
    (ht : strEndsWith f.dirBase "-Trybot" = false)
    (hg : mapGet meta f.dirBase = some d) (htr : truthy d = true) :
    (writeDictsToRoot truthy meta root).1.files[i]? = some { f with content := d } := by
  rw [writeDicts_files truthy meta root hdir, List.getElem?_map, hf]
  simp [writeFileStep_write truthy meta f hm ht hg htr]

theorem writeDicts_missing_builder {α : Type} (truthy : α → Bool) (meta : List (String × α))
    (root : Root α) (b : String)
    (hdir : root.isDir = true)
    (hb : b ∈ meta.map Prod.fst)
    (hnof : ∀ f ∈ root.files, f.dirBase ≠ b) :
    ∃ ew aw, (writeDictsToRoot truthy meta root).2 = some (PyErr.setMismatch ew aw) ∧
      b ∈ ew ∧ b ∉ aw := by
  have hbew : b ∈ sortStrings (meta.map Prod.fst) := mem_sortStrings.mpr hb
  have hbaw : b ∉ sortStrings (root.files.filterMap (Prod.snd ∘ writeFileStep truthy meta)) := by
    rw [mem_sortStrings]
    intro hmem
    rcases List.mem_filterMap.mp hmem with ⟨f, hfmem, hps⟩
    exact hnof f hfmem (writeFileStep_snd_builder hps).symm
  have hne : sortStrings (meta.map Prod.fst) ≠
      sortStrings (root.files.filterMap (Prod.snd ∘ writeFileStep truthy meta)) :=
    fun hEq => hbaw (hEq ▸ hbew)
  refine ⟨sortStrings (meta.map Prod.fst),
          sortStrings (root.files.filterMap (Prod.snd ∘ writeFileStep truthy meta)),
          ?_, hbew, hbaw⟩
  simp only [writeDictsToRoot, hdir]
  simp [hne, List.filterMap_map]

theorem applyMod_error_class {m : Modification} {dicts : List (String × ExpectedDoc)} {e : PyErr}
    (h : applyMod m dicts = Except.error e) :
    (∃ s, e = PyErr.keyError s) ∨ (∃ s, e = PyErr.valueError s) := by
  unfold applyMod at h
  cases hi : pyInt? m.expectedHashDigest with
  | none =>
    rw [hi] at h
    simp only [Except.error.injEq] at h
    exact Or.inr ⟨m.expectedHashDigest, h.symm⟩
  | some n =>
    rw [hi] at h
    cases hg : mapGet dicts m.builder with
    | none =>
      rw [hg] at h
      simp only [Except.error.injEq] at h
      exact Or.inl ⟨m.builder, h.symm⟩
    | some bd =>
      rw [hg] at h
      simp at h

theorem applyMod_ok_keys_none {m : Modification} {dicts dicts' : List (String × ExpectedDoc)}
    {b : String} (h : applyMod m dicts = Except.ok dicts')
    (hb : mapGet dicts b = Option.none) : mapGet dicts' b = Option.none := by
  unfold applyMod at h
  cases hi : pyInt? m.expectedHashDigest with
  | none => rw [hi] at h; simp at h
  | some n =>
    rw [hi] at h
    cases hg : mapGet dicts m.builder with
    | none => rw [hg] at h; simp at h
    | some bd =>
      rw [hg] at h
      simp only [Except.ok.injEq] at h
      subst h
      rw [mapGet_mapSet]
      have hne : m.builder ≠ b := by
        intro hEq
        rw [hEq, hb] at hg
        exact absurd hg (by simp)
      rw [if_neg hne]
      exact hb

theorem applyMods_error_of_bad {mods : List Modification} {dicts : List (String × ExpectedDoc)}
    {m : Modification} (hm : m ∈ mods)
    (hbad : pyInt? m.expectedHashDigest = Option.none ∨ mapGet dicts m.builder = Option.none) :
    ∃ e, applyMods mods dicts = Except.error e ∧
      ((∃ s, e = PyErr.keyError s) ∨ (∃ s, e = PyErr.valueError s)) := by
  induction mods generalizing dicts with
  | nil => simp at hm
  | cons m0 t ih =>
    cases ha : applyMod m0 dicts with
    | error e =>
      refine ⟨e, ?_, applyMod_error_class ha⟩
      simp [applyMods, ha]
    | ok dicts' =>
      rcases List.mem_cons.mp hm with rfl | hmem
      · exfalso
        unfold applyMod at ha
        rcases hbad with hb1 | hb2
        · rw [hb1] at ha
          simp at ha
        · cases hi : pyInt? m.expectedHashDigest with
          | none => rw [hi] at ha; simp at ha
          | some n =>
            rw [hi, hb2] at ha
            simp at ha
      · have hbad' : pyInt? m.expectedHashDigest = Option.none ∨
            mapGet dicts' m.builder = Option.none := by
          rcases hbad with hb1 | hb2
          · exact Or.inl hb1
          · exact Or.inr (applyMod_ok_keys_none ha hb2)
        rcases ih hmem hbad' with ⟨e, he, hcls⟩
        exact ⟨e, by simp [applyMods, ha, he], hcls⟩

theorem editExpectations_mod_error {mods : List Modification} {root : Root ExpectedDoc}
    {dicts : List (String × ExpectedDoc)} {e : PyErr}
    (h0 : readDictsFromRoot root = Except.ok dicts)
    (he : applyMods mods dicts = Except.error e) :
    editExpectations mods root = (root, some e) := by
  unfold editExpectations
  rw [h0]
  dsimp only
  rw [he]

theorem editExpectations_trybot_file (mods : List Modification) (root : Root ExpectedDoc)
    (i : Nat) (f : FileEntry ExpectedDoc)
    (hf : root.files[i]? = some f) (hb : strEndsWith f.dirBase "-Trybot" = true) :
    (editExpectations mods root).1.files[i]? = some f := by
  unfold editExpectations
  cases hr : readDictsFromRoot root with
  | error e => exact hf
  | ok dicts =>
    dsimp only
    cases ha : applyMods mods dicts with
    | error e => exact hf
    | ok dicts' => exact writeDicts_trybot_file docTruthy dicts' root i f hf hb

/-! The claims. -/

/-- C1: for every builder, image name and actual result loaded during
snapshot construction, if the (effective) expected `[hashType, hashDigest]`
pair for that image equals the actual pair, the constructed record's
`resultType` is `succeeded` regardless of the recorded result type;
otherwise it equals the originally recorded result type. -/
theorem spec_C1 (aRoot : Root ActualDoc) (eRoot : Root ExpectedDoc)
    (ads : List (String × ActualDoc)) (eds : List (String × ExpectedDoc))
    (snap : Snapshot) (ws : List Warning)
    (h1 : readDictsFromRoot aRoot = Except.ok ads)
    (h2 : readDictsFromRoot eRoot = Except.ok eds)
    (h3 : loadActualAndExpected aRoot eRoot = Except.ok (snap, ws)) :
    ∀ r ∈ snap.all.testData, ∃ it ∈ actualItems ads,
      (expectedPairOf eds it.builder it.imageName = it.actualImage →
        r.resultType = JSONKEY_ACTUALRESULTS_SUCCEEDED) ∧
      (expectedPairOf eds it.builder it.imageName ≠ it.actualImage →
        r.resultType = it.resultType) := by
  intro r hr
  rcases load_ok_spec h1 h2 h3 with ⟨rws, hmap, hall, _, _, _⟩
  rw [hall] at hr
  rcases List.mem_map.mp hr with ⟨rcd, hrcd, hfst⟩
  obtain ⟨r0, w0⟩ := rcd
  dsimp only at hfst
  subst hfst
  rcases exceptMapM_ok_mem hmap hrcd with ⟨it, hit, hrec⟩
  have hc := recordOf_ok hrec
  refine ⟨it, hit, fun heq => ?_, fun hne => ?_⟩
  · rw [hc.2.1, if_pos heq]
  · rw [hc.2.1, if_neg hne]

/-- Witness for C1: the sample snapshot instantiates the hypotheses. -/
theorem spec_C1_witness :
    (readDictsFromRoot wActualsRoot = Except.ok wAds) ∧
    (readDictsFromRoot wExpectedRoot = Except.ok wEds) ∧
    (loadActualAndExpected wActualsRoot wExpectedRoot = Except.ok (wSnap, wWarnings)) ∧
    (∀ r ∈ wSnap.all.testData, ∃ it ∈ actualItems wAds,
      (expectedPairOf wEds it.builder it.imageName = it.actualImage →
        r.resultType = JSONKEY_ACTUALRESULTS_SUCCEEDED) ∧
      (expectedPairOf wEds it.builder it.imageName ≠ it.actualImage →
        r.resultType = it.resultType)) :=
  ⟨rfl, rfl, rfl, spec_C1 wActualsRoot wExpectedRoot wAds wEds wSnap wWarnings rfl rfl rfl⟩

/-- C2: the `failures` view's records are exactly the subsequence of the
`all` view's records whose effective result type is not `succeeded`, and the
`failures` category counts are exactly what accumulating only those records
into the seeded `failures` category dictionary produces. -/
theorem spec_C2 (aRoot : Root ActualDoc) (eRoot : Root ExpectedDoc)
    (ads : List (String × ActualDoc)) (eds : List (String × ExpectedDoc))
    (snap : Snapshot) (ws : List Warning)
    (h1 : readDictsFromRoot aRoot = Except.ok ads)
    (h2 : readDictsFromRoot eRoot = Except.ok eds)
    (h3 : loadActualAndExpected aRoot eRoot = Except.ok (snap, ws)) :
    snap.failures.testData = snap.all.testData.filter
      (fun r => !(r.resultType == JSONKEY_ACTUALRESULTS_SUCCEEDED)) ∧
    snap.failures.categories = (snap.all.testData.filter
      (fun r => !(r.resultType == JSONKEY_ACTUALRESULTS_SUCCEEDED))).foldl
      addToCategoryDict initialLoadState.categoriesFailures := by
  rcases load_ok_spec h1 h2 h3 with ⟨rws, hmap, hall, hfail, hcat, hcatf⟩
  exact ⟨by rw [hfail, hall], by rw [hcatf, hall]⟩

/-- Witness for C2: the sample snapshot instantiates the hypotheses. -/
theorem spec_C2_witness :
    (readDictsFromRoot wActualsRoot = Except.ok wAds) ∧
    (readDictsFromRoot wExpectedRoot = Except.ok wEds) ∧
    (loadActualAndExpected wActualsRoot wExpectedRoot = Except.ok (wSnap, wWarnings)) ∧
    (wSnap.failures.testData = wSnap.all.testData.filter
      (fun r => !(r.resultType == JSONKEY_ACTUALRESULTS_SUCCEEDED)) ∧
     wSnap.failures.categories = (wSnap.all.testData.filter
      (fun r => !(r.resultType == JSONKEY_ACTUALRESULTS_SUCCEEDED))).foldl
      addToCategoryDict initialLoadState.categoriesFailures) :=
  ⟨rfl, rfl, rfl, spec_C2 wActualsRoot wExpectedRoot wAds wEds wSnap wWarnings rfl rfl rfl⟩

/-- Counterexample to C3 as stated: calling `edit_expectations` with a
modifications list naming builder `B`, which has no expectations file on
disk, raises the builder-lookup `KeyError` (not the writer's set-mismatch
error) and performs no write at all: the tree is returned unchanged, so
builder `A`'s file is not updated even though `A` was also in the list. -/
theorem spec_C3_counterexample :
    editExpectations c3Mods c3Root = (c3Root, some (PyErr.keyError "B")) ∧
    (PyErr.keyError "B").isSetMismatch = false :=
  ⟨rfl, rfl⟩

/-- C3 (amended): it is the Directory Tree Writer, `_write_dicts_to_root`,
that behaves as claimed when handed a mapping containing a builder with no
existing on-disk file: it raises the set-mismatch error, and every other
builder's existing matching file is nonetheless overwritten before the error
is raised (the check runs after the write loop).  `edit_expectations` itself
never reaches the writer in that situation: it raises a `KeyError` while
applying the modification and writes nothing. -/
theorem spec_C3 (truthy : ExpectedDoc → Bool) (meta : List (String × ExpectedDoc))
    (root : Root ExpectedDoc) (b : String)
    (hdir : root.isDir = true)
    (hb : b ∈ meta.map Prod.fst)
    (hnof : ∀ f ∈ root.files, f.dirBase ≠ b) :
    (∃ ew aw, (writeDictsToRoot truthy meta root).2 = some (PyErr.setMismatch ew aw) ∧
      b ∈ ew ∧ b ∉ aw) ∧
    (∀ (i : Nat) (f : FileEntry ExpectedDoc) (d : ExpectedDoc),
      root.files[i]? = some f → matchesJson f.filename = true →
      strEndsWith f.dirBase "-Trybot" = false →
      mapGet meta f.dirBase = some d → truthy d = true →
      (writeDictsToRoot truthy meta root).1.files[i]? = some { f with content := d }) := by
  refine ⟨writeDicts_missing_builder truthy meta root b hdir hb hnof, ?_⟩
  intro i f d hf hm ht hg htr
  exact writeDicts_updates truthy meta root i f d hdir hf hm ht hg htr

/-- Witness for C3 (amended): writing `{A, B}` into a tree holding a file
only for `A` mismatches on `B`, while `A`'s file is overwritten. -/
theorem spec_C3_witness :
    (c3Root.isDir = true) ∧ ("B" ∈ c3Meta.map Prod.fst) ∧
    (∀ f ∈ c3Root.files, f.dirBase ≠ "B") ∧
    ((∃ ew aw, (writeDictsToRoot docTruthy c3Meta c3Root).2 = some (PyErr.setMismatch ew aw) ∧
      "B" ∈ ew ∧ "B" ∉ aw) ∧
     (∀ (i : Nat) (f : FileEntry ExpectedDoc) (d : ExpectedDoc),
       c3Root.files[i]? = some f → matchesJson f.filename = true →
       strEndsWith f.dirBase "-Trybot" = false →
       mapGet c3Meta f.dirBase = some d → docTruthy d = true →
       (writeDictsToRoot docTruthy c3Meta c3Root).1.files[i]? = some { f with content := d })) :=
  ⟨rfl, by decide, by decide, spec_C3 docTruthy c3Meta c3Root "B" rfl (by decide) (by decide)⟩

/-- C4: the round-trip.  Editing builder `B` (which has an existing
expectations file) with test `t`, config `8888`, hash type
`bitmap-64bitMD5` and digest string `123` succeeds, and re-reading the
expected tree yields, for image `t_8888.png` under `B`, allowed-digests
`[[bitmap-64bitMD5, 123]]` with the digest stored as the integer `123`, and
ignore-failure `false`. -/
theorem spec_C4 :
    c4After.2 = Option.none ∧
    c4Entry = some { allowedDigests := some [(PyVal.str "bitmap-64bitMD5", PyVal.int 123)],
                     ignoreFailure := some (PyVal.bool false) } :=
  ⟨rfl, rfl⟩

/-- Counterexample to C5 as stated: in the `no-comparison` scenario with no
expected entry, the record's `expectedHashDigest` is the four-character
string `"None"` (the code stores `str(expected_image[1])`), not a null
value. -/
theorem spec_C5_counterexample :
    c5ExpectedDigests = [PyVal.str "None"] ∧ c5ExpectedDigests ≠ [PyVal.none] :=
  ⟨rfl, by decide⟩

/-- C5 (amended): when an actual result of type `no-comparison` has no
corresponding entry in the expected tree, the constructed record has
`expectedHashType` null and `expectedHashDigest` equal to the string
`"None"` (the stringification of null), its result type stays
`no-comparison`, and no warning is logged for it. -/
theorem spec_C5 :
    c5TestData = [{ builder := "builderA", test := "test2", config := "565",
                    resultType := JSONKEY_ACTUALRESULTS_NOCOMPARISON,
                    actualHashType := PyVal.str "md5",
                    actualHashDigest := PyVal.str "222",
                    expectedHashType := PyVal.none,
                    expectedHashDigest := PyVal.str "None" }] ∧
    c5Warnings = [] :=
  ⟨rfl, rfl⟩

/-- C6: in every constructed snapshot, the `resultType` category dictionary
of the `all` view contains all four canonical result-type keys and that of
the `failures` view contains the three non-`succeeded` ones, each bound to a
(necessarily non-negative) count even when no record of that type was
accumulated; and accumulating a record never decreases any count. -/
theorem spec_C6 (aRoot : Root ActualDoc) (eRoot : Root ExpectedDoc)
    (ads : List (String × ActualDoc)) (eds : List (String × ExpectedDoc))
    (snap : Snapshot) (ws : List Warning)
    (h1 : readDictsFromRoot aRoot = Except.ok ads)
    (h2 : readDictsFromRoot eRoot = Except.ok eds)
    (h3 : loadActualAndExpected aRoot eRoot = Except.ok (snap, ws)) :
    (∀ k ∈ allResultTypes, ∃ n : Nat, innerGet snap.all.categories "resultType" k = some n) ∧
    (∀ k ∈ failureResultTypes,
      ∃ n : Nat, innerGet snap.failures.categories "resultType" k = some n) ∧
    (∀ (cd : CategoryDict) (r : TestRecord) (cat v : String) (n : Nat),
      innerGet cd cat v = some n →
      ∃ m, n ≤ m ∧ innerGet (addToCategoryDict cd r) cat v = some m) := by
  rcases load_ok_spec h1 h2 h3 with ⟨rws, hmap, hall, hfail, hcat, hcatf⟩
  refine ⟨?_, ?_, fun cd r cat v n h => addToCategoryDict_mono h r⟩
  · intro k hk
    have h0 : innerGet initialLoadState.categoriesAll "resultType" k = some 0 := by
      simp only [allResultTypes, List.mem_cons, List.not_mem_nil, or_false] at hk
      rcases hk with rfl | rfl | rfl | rfl <;> decide
    rw [hcat]
    rcases foldl_addToCategoryDict_mono h0 with ⟨m, _, hm⟩
    exact ⟨m, hm⟩
  · intro k hk
    have h0 : innerGet initialLoadState.categoriesFailures "resultType" k = some 0 := by
      simp only [failureResultTypes, List.mem_cons, List.not_mem_nil, or_false] at hk
      rcases hk with rfl | rfl | rfl <;> decide
    rw [hcatf]
    rcases foldl_addToCategoryDict_mono h0 with ⟨m, _, hm⟩
    exact ⟨m, hm⟩

/-- Witness for C6: the sample snapshot instantiates the hypotheses. -/
theorem spec_C6_witness :
    (readDictsFromRoot wActualsRoot = Except.ok wAds) ∧
    (readDictsFromRoot wExpectedRoot = Except.ok wEds) ∧
    (loadActualAndExpected wActualsRoot wExpectedRoot = Except.ok (wSnap, wWarnings)) ∧
    ((∀ k ∈ allResultTypes, ∃ n : Nat, innerGet wSnap.all.categories "resultType" k = some n) ∧
     (∀ k ∈ failureResultTypes,
       ∃ n : Nat, innerGet wSnap.failures.categories "resultType" k = some n) ∧
     (∀ (cd : CategoryDict) (r : TestRecord) (cat v : String) (n : Nat),
       innerGet cd cat v = some n →
       ∃ m, n ≤ m ∧ innerGet (addToCategoryDict cd r) cat v = some m)) :=
  ⟨rfl, rfl, rfl, spec_C6 wActualsRoot wExpectedRoot wAds wEds wSnap wWarnings rfl rfl rfl⟩

/-- C7: a builder whose name ends in `-Trybot` never appears in either view
of the snapshot — not among the loaded builder dictionaries, not as the
builder of any record of either view, not as a key of either view's
`builder` category — and neither the writer nor the Baseline Editor ever
rewrites a file sitting in a `-Trybot` builder's directory, whatever the
requested mapping or modifications. -/
theorem spec_C7 (aRoot : Root ActualDoc) (eRoot : Root ExpectedDoc)
    (ads : List (String × ActualDoc)) (eds : List (String × ExpectedDoc))
    (snap : Snapshot) (ws : List Warning) (b : String)
    (truthy : ExpectedDoc → Bool) (meta : List (String × ExpectedDoc))
    (troot : Root ExpectedDoc) (mods : List Modification) (eroot : Root ExpectedDoc)
    (i j : Nat) (f g : FileEntry ExpectedDoc)
    (hb : strEndsWith b "-Trybot" = true)
    (h1 : readDictsFromRoot aRoot = Except.ok ads)
    (h2 : readDictsFromRoot eRoot = Except.ok eds)
    (h3 : loadActualAndExpected aRoot eRoot = Except.ok (snap, ws))
    (hf : troot.files[i]? = some f) (hfb : f.dirBase = b)
    (hg : eroot.files[j]? = some g) (hgb : g.dirBase = b) :
    mapGet ads b = Option.none ∧
    mapGet eds b = Option.none ∧
    (∀ r ∈ snap.all.testData, r.builder ≠ b) ∧
    (∀ r ∈ snap.failures.testData, r.builder ≠ b) ∧
    innerGet snap.all.categories "builder" b = Option.none ∧
    innerGet snap.failures.categories "builder" b = Option.none ∧
    (writeDictsToRoot truthy meta troot).1.files[i]? = some f ∧
    (editExpectations mods eroot).1.files[j]? = some g := by
  have hads := readDicts_trybot_none h1 hb
  have heds := readDicts_trybot_none h2 hb
  rcases load_ok_spec h1 h2 h3 with ⟨rws, hmap, hall, hfail, hcat, hcatf⟩
  have hrecs : ∀ r ∈ rws.map Prod.fst, r.builder ≠ b := by
    intro r hr
    rcases List.mem_map.mp hr with ⟨rcd, hrcd, hfst⟩
    obtain ⟨r0, w0⟩ := rcd
    dsimp only at hfst
    subst hfst
    rcases exceptMapM_ok_mem hmap hrcd with ⟨it, hit, hrec⟩
    have hc := recordOf_ok hrec
    rw [hc.1]
    intro hEq
    have hmem := mem_actualItems_builder hit
    rw [hEq] at hmem
    exact (mapGet_eq_none_iff ads b).mp hads hmem
  refine ⟨hads, heds, ?_, ?_, ?_, ?_, ?_, ?_⟩
  · intro r hr
    exact hrecs r (hall ▸ hr)
  · intro r hr
    rw [hfail] at hr
    exact hrecs r (List.mem_of_mem_filter hr)
  · rw [hcat]
    exact foldl_addToCategoryDict_builder_none (initial_categoriesAll_builder_none b) hrecs
  · rw [hcatf]
    refine foldl_addToCategoryDict_builder_none (initial_categoriesFailures_builder_none b) ?_
    intro r hr
    exact hrecs r (List.mem_of_mem_filter hr)
  · exact writeDicts_trybot_file truthy meta troot i f hf (by rw [hfb]; exact hb)
  · exact editExpectations_trybot_file mods eroot j g hg (by rw [hgb]; exact hb)

/-- Witness for C7: a world containing builder `X-Trybot` alongside a
regular builder instantiates every hypothesis. -/
theorem spec_C7_witness :
    (strEndsWith "X-Trybot" "-Trybot" = true) ∧
    (readDictsFromRoot w7ActualsRoot = Except.ok w7Ads) ∧
    (readDictsFromRoot w7ExpectedRoot = Except.ok w7Eds) ∧
    (loadActualAndExpected w7ActualsRoot w7ExpectedRoot = Except.ok (w7Snap, w7Warnings)) ∧
    (w7ExpectedRoot.files[1]? = some w7TrybotFile) ∧
    (mapGet w7Ads "X-Trybot" = Option.none ∧
     mapGet w7Eds "X-Trybot" = Option.none ∧
     (∀ r ∈ w7Snap.all.testData, r.builder ≠ "X-Trybot") ∧
     (∀ r ∈ w7Snap.failures.testData, r.builder ≠ "X-Trybot") ∧
     innerGet w7Snap.all.categories "builder" "X-Trybot" = Option.none ∧
     innerGet w7Snap.failures.categories "builder" "X-Trybot" = Option.none ∧
     (writeDictsToRoot docTruthy [("BuilderA", wExpectedDoc)] w7ExpectedRoot).1.files[1]? =
       some w7TrybotFile ∧
     (editExpectations [] w7ExpectedRoot).1.files[1]? = some w7TrybotFile) :=
  ⟨by decide, rfl, rfl, rfl, rfl,
   spec_C7 w7ActualsRoot w7ExpectedRoot w7Ads w7Eds w7Snap w7Warnings "X-Trybot"
     docTruthy [("BuilderA", wExpectedDoc)] w7ExpectedRoot [] w7ExpectedRoot 1 1
     w7TrybotFile w7TrybotFile
     (by decide) rfl rfl rfl rfl rfl rfl rfl⟩

/-- C8: the `all` view's records are produced, in order, from the loop-tuple
list of the actual dictionaries, and that list is strictly sorted
lexicographically by builder, then original (pre-reclassification) result
type, then image name; the whole build is a function of the input trees, so
it is deterministic. -/
theorem spec_C8 (aRoot : Root ActualDoc) (eRoot : Root ExpectedDoc)
    (ads : List (String × ActualDoc)) (eds : List (String × ExpectedDoc))
    (snap : Snapshot) (ws : List Warning)
    (h1 : readDictsFromRoot aRoot = Except.ok ads)
    (h2 : readDictsFromRoot eRoot = Except.ok eds)
    (h3 : loadActualAndExpected aRoot eRoot = Except.ok (snap, ws)) :
    List.Pairwise itemLT (actualItems ads) ∧
    ∃ rws, exceptMapM (recordOfItem eds) (actualItems ads) = Except.ok rws ∧
      snap.all.testData = rws.map Prod.fst := by
  rcases load_ok_spec h1 h2 h3 with ⟨rws, hmap, hall, _, _, _⟩
  exact ⟨actualItems_pairwise ads, rws, hmap, hall⟩

/-- Witness for C8: the sample snapshot instantiates the hypotheses. -/
theorem spec_C8_witness :
    (readDictsFromRoot wActualsRoot = Except.ok wAds) ∧
    (readDictsFromRoot wExpectedRoot = Except.ok wEds) ∧
    (loadActualAndExpected wActualsRoot wExpectedRoot = Except.ok (wSnap, wWarnings)) ∧
    (List.Pairwise itemLT (actualItems wAds) ∧
     ∃ rws, exceptMapM (recordOfItem wEds) (actualItems wAds) = Except.ok rws ∧
       wSnap.all.testData = rws.map Prod.fst) :=
  ⟨rfl, rfl, rfl, spec_C8 wActualsRoot wExpectedRoot wAds wEds wSnap wWarnings rfl rfl rfl⟩

/-- C9: if some modification in the list names a builder absent from the
freshly loaded expected tree, or carries a digest string that `int()` cannot
parse, `edit_expectations` raises the corresponding `KeyError` or
`ValueError` before the write-back step, so the on-disk tree is returned
unchanged. -/
theorem spec_C9 (root : Root ExpectedDoc) (mods : List Modification) (m : Modification)
    (dicts : List (String × ExpectedDoc))
    (h0 : readDictsFromRoot root = Except.ok dicts)
    (hm : m ∈ mods)
    (hbad : pyInt? m.expectedHashDigest = Option.none ∨
      mapGet dicts m.builder = Option.none) :
    (editExpectations mods root).1 = root ∧
    ∃ e, (editExpectations mods root).2 = some e ∧
      ((∃ s, e = PyErr.keyError s) ∨ (∃ s, e = PyErr.valueError s)) := by
  rcases applyMods_error_of_bad hm hbad with ⟨e, he, hcls⟩
  rw [editExpectations_mod_error h0 he]
  exact ⟨rfl, e, rfl, hcls⟩

/-- Witness for C9: a modification for builder `B`, which has no file under
`c3Root`, aborts the edit with the tree unchanged. -/
theorem spec_C9_witness :
    (readDictsFromRoot c3Root = Except.ok c3Dicts) ∧
    (c3ModB ∈ [c3ModB]) ∧
    (pyInt? c3ModB.expectedHashDigest = Option.none ∨
      mapGet c3Dicts c3ModB.builder = Option.none) ∧
    ((editExpectations [c3ModB] c3Root).1 = c3Root ∧
     ∃ e, (editExpectations [c3ModB] c3Root).2 = some e ∧
       ((∃ s, e = PyErr.keyError s) ∨ (∃ s, e = PyErr.valueError s))) :=
  ⟨rfl, by decide, Or.inr (by decide),
   spec_C9 c3Root [c3ModB] c3ModB c3Dicts rfl (by decide) (Or.inr (by decide))⟩

/-- C10: in every constructed record the two digest fields hold strings
(stringifications of the stored values); in particular, when no baseline
exists for the image, `expectedHashDigest` is the string `"None"` while
`expectedHashType` is null. -/
theorem spec_C10 (aRoot : Root ActualDoc) (eRoot : Root ExpectedDoc)
    (ads : List (String × ActualDoc)) (eds : List (String × ExpectedDoc))
    (snap : Snapshot) (ws : List Warning)
    (h1 : readDictsFromRoot aRoot = Except.ok ads)
    (h2 : readDictsFromRoot eRoot = Except.ok eds)
    (h3 : loadActualAndExpected aRoot eRoot = Except.ok (snap, ws)) :
    ∀ r ∈ snap.all.testData, ∃ it w, it ∈ actualItems ads ∧
      recordOfItem eds it = Except.ok (r, w) ∧
      (∃ s, r.actualHashDigest = PyVal.str s) ∧
      (∃ s, r.expectedHashDigest = PyVal.str s) ∧
      (lookupExpected eds it.builder it.imageName = ExpLookup.caught →
        r.expectedHashType = PyVal.none ∧ r.expectedHashDigest = PyVal.str "None") := by
  intro r hr
  rcases load_ok_spec h1 h2 h3 with ⟨rws, hmap, hall, _, _, _⟩
  rw [hall] at hr
  rcases List.mem_map.mp hr with ⟨rcd, hrcd, hfst⟩
  obtain ⟨r0, w0⟩ := rcd
  dsimp only at hfst
  subst hfst
  rcases exceptMapM_ok_mem hmap hrcd with ⟨it, hit, hrec⟩
  have hc := recordOf_ok hrec
  refine ⟨it, w0, hit, hrec, ⟨_, hc.2.2.2.1⟩, ⟨_, hc.2.2.2.2.2⟩, ?_⟩
  intro hcaught
  have hpair := expectedPairOf_caught hcaught
  constructor
  · rw [hc.2.2.2.2.1, hpair]
  · rw [hc.2.2.2.2.2, hpair]
    rfl

/-- Witness for C10: the sample snapshot instantiates the hypotheses. -/
theorem spec_C10_witness :
    (readDictsFromRoot wActualsRoot = Except.ok wAds) ∧
    (readDictsFromRoot wExpectedRoot = Except.ok wEds) ∧
    (loadActualAndExpected wActualsRoot wExpectedRoot = Except.ok (wSnap, wWarnings)) ∧
    (∀ r ∈ wSnap.all.testData, ∃ it w, it ∈ actualItems wAds ∧
      recordOfItem wEds it = Except.ok (r, w) ∧
      (∃ s, r.actualHashDigest = PyVal.str s) ∧
      (∃ s, r.expectedHashDigest = PyVal.str s) ∧
      (lookupExpected wEds it.builder it.imageName = ExpLookup.caught →
        r.expectedHashType = PyVal.none ∧ r.expectedHashDigest = PyVal.str "None")) :=
  ⟨rfl, rfl, rfl, spec_C10 wActualsRoot wExpectedRoot wAds wEds wSnap wWarnings rfl rfl rfl⟩
